import Mathlib

/-!
Shallow embedding of the AlphaLearn vocabulary-learning app (`app.py`).

The relational tables created by `init_db` become lists of records inside a
`DB` structure; SQLite AUTOINCREMENT ids become explicit `next…Id` counters.
Timestamps are modelled as naturals (ISO timestamp strings compare
lexicographically, which agrees with the numeric order on the instants they
denote).  Randomness (`random.choice`, `ORDER BY RANDOM()`) is injected as an
explicit parameter.  The external dictionary HTTP call is modelled by a
`DictResponse` value describing every possible outcome of the request.
-/

namespace AlphaLearn

/-- A row of the `words` table: id, word, definition, example. -/
structure Word where
  id : Nat
  word : String
  definitionText : String
  exampleText : String
deriving DecidableEq

/-- A row of the `daily_sets` table: id, date_assigned (UNIQUE). -/
structure DailySetRow where
  id : Nat
  dateAssigned : String
deriving DecidableEq

/-- A row of the `daily_words` table: daily_set_id, word_id, letter,
with UNIQUE(daily_set_id, letter). -/
structure DailyWordRow where
  dailySetId : Nat
  wordId : Nat
  letter : Char
deriving DecidableEq

/-- A row of the `user_progress` table, UNIQUE(user_id, word_id). -/
structure ProgressRow where
  userId : Nat
  wordId : Nat
  firstTestedAt : Nat
  lastTestedAt : Nat
  correctCount : Nat
  incorrectCount : Nat
  learned : Bool
deriving DecidableEq

/-- A row of the `user_errors` table, UNIQUE(user_id, word_id). -/
structure ErrorRow where
  userId : Nat
  wordId : Nat
  lastWrongAt : Nat
deriving DecidableEq

/-- The persistent store: the tables of `init_db` (the `users` table plays no
role in the verified operations) plus AUTOINCREMENT counters. -/
structure DB where
  dailySets : List DailySetRow
  words : List Word
  dailyWords : List DailyWordRow
  progress : List ProgressRow
  errors : List ErrorRow
  nextDailySetId : Nat
  nextWordId : Nat
deriving DecidableEq

/-- The freshly initialised database: all tables empty. -/
def emptyDB : DB :=
  { dailySets := [], words := [], dailyWords := [], progress := [], errors := []
    nextDailySetId := 1, nextWordId := 1 }

/-! ## Dictionary API (`fetch_word_definition`) -/

/-- One entry of `meanings[i]['definitions']`: the `definition` key may be
absent (a KeyError in the source) and `example` is read with a default. -/
structure DictDefinition where
  definitionField : Option String
  exampleField : Option String
deriving DecidableEq

/-- One entry of the `meanings` list; its `definitions` key may be absent. -/
structure DictMeaning where
  definitions : Option (List DictDefinition)
deriving DecidableEq

/-- The first element of the JSON array: `meanings` is read with default `[]`. -/
structure DictEntry where
  meanings : Option (List DictMeaning)
deriving DecidableEq

/-- Every outcome of `requests.get` on the dictionary API: a raised network
error, or a response with a status code and a body that parses either to a
JSON array of entries or not at all (`none` = `response.json()` raises). -/
inductive DictResponse where
  | netError : DictResponse
  | response (statusCode : Nat) (json : Option (List DictEntry)) : DictResponse
deriving DecidableEq

/-- The placeholder pair returned on every failure path. -/
def fetchFallback : String × String := ("Definition not available", "No example available")

/-- The walk of the 200-payload inside the `try` block: each step that can
raise (malformed JSON from `response.json()`, `[0]` on an empty array, a
missing `definitions` or `definition` key, `[0]` on an empty list) yields
`none`, and an empty `meanings` list falls through without raising; `none`
therefore marks exactly the paths on which the source ends at the
placeholder pair. -/
def extractPair (json : Option (List DictEntry)) : Option (String × String) := do
  let entries ← json
  let entry ← entries.head?
  match entry.meanings.getD [] with
  | [] => none
  | m :: _ => do
    let ds ← m.definitions
    let d ← ds.head?
    let defn ← d.definitionField
    pure (defn, d.exampleField.getD "No example available")

/-- `fetch_word_definition`: on a 200 response return the extracted pair when
the walk succeeds; every exception is caught and every other path returns the
placeholder pair. -/
def fetch_word_definition : DictResponse → String × String
  | .netError => fetchFallback
  | .response statusCode json =>
    if statusCode = 200 then (extractPair json).getD fetchFallback
    else fetchFallback

/-- The outcomes on which the source reaches its success return; on every
other outcome it returns the placeholder pair. -/
def fetchSucceeds : DictResponse → Bool
  | .netError => false
  | .response statusCode json => statusCode == 200 && (extractPair json).isSome

/-! ## Daily 26 words generator -/

/-- `SEED_WORDS` from the source, verbatim. -/
def SEED_WORDS : List String := [
  "abate","abjure","abyss","banal","bastion","befriend","cadence","cajole","candid","daunt","debunk","decipher",
  "eager","ebullient","echelon","facet","fallacy","fastidious","gaiety","gargantuan","genial","habitat","hackneyed","halcyon",
  "iconic","ideal","idle","jaunt","jeer","jocular","keen","kinetic","knack","labile","laconic","lambent",
  "malleable","manifest","maverick","naive","nascent","nebulous","oasis","oblique","odious","palatable","palpable","paragon",
  "quaint","quell","querulous","rabid","rancor","rapt","sagacious","salient","sanguine","tacit","tangible","tenable",
  "ubiquitous","ulterior","umbrage","vacuous","valiant","venerable","wane","wary","witty","xenial","xeric","xiphoid",
  "yare","yeoman","yield","zeal","zenith","zephyr"]

/-- `LETTERS = [chr(c) for c in range(ord('A'), ord('Z')+1)]`. -/
def LETTERS : List Char := (List.range 26).map (fun i => Char.ofNat (65 + i))

/-- The fallback pseudo word `f"{letter.lower()}-word-{random.randint(100,999)}"`,
with the random draw injected as `n`. -/
def fallbackWord (letter : Char) (n : Nat) : String :=
  (String.mk [letter]).toLower ++ "-word-" ++ toString (100 + n % 900)

/-- `SELECT id FROM words WHERE word = ?` followed by either reuse of the found
id or an insert enriched through `fetch_word_definition`; `lookup` models the
HTTP layer, giving the response the API would return for each word. -/
def lookupOrInsertWord (lookup : String → DictResponse) (db : DB) (chosen : String) :
    Nat × DB :=
  match db.words.find? (fun w => w.word == chosen) with
  | some w => (w.id, db)
  | none =>
    let de := fetch_word_definition (lookup chosen)
    (db.nextWordId,
      { db with
        words := db.words ++
          [{ id := db.nextWordId, word := chosen
             definitionText := de.1, exampleText := de.2 }]
        nextWordId := db.nextWordId + 1 })

/-- `INSERT OR IGNORE INTO daily_words`: the UNIQUE(daily_set_id, letter)
constraint silently drops a conflicting insert. -/
def insertDailyWord (rows : List DailyWordRow) (r : DailyWordRow) : List DailyWordRow :=
  if rows.any (fun q => q.dailySetId == r.dailySetId && q.letter == r.letter) then rows
  else rows ++ [r]

/-- One iteration of the per-letter loop of `ensure_daily_set`: filter the seed
list for the letter (case-insensitive prefix), choose by the injected random
draw (falling back to a synthesised pseudo word when no candidate exists),
lookup-or-insert into `words`, and map into `daily_words`. -/
def dailyStep (rand : Char → Nat) (lookup : String → DictResponse) (setId : Nat)
    (acc : DB) (letter : Char) : DB :=
  let candidates := SEED_WORDS.filter
    (fun w => w.toLower.startsWith (String.mk [letter]).toLower)
  let chosen := candidates.getD (rand letter % candidates.length)
    (fallbackWord letter (rand letter))
  let wi := lookupOrInsertWord lookup acc chosen
  { wi.2 with dailyWords := insertDailyWord wi.2.dailyWords ⟨setId, wi.1, letter⟩ }

/-- `ensure_daily_set(date_str)`: return the existing set id for the date, or
create a new set row and run the A–Z loop. -/
def ensure_daily_set (rand : Char → Nat) (lookup : String → DictResponse)
    (dateStr : String) (db : DB) : Nat × DB :=
  match db.dailySets.find? (fun s => s.dateAssigned == dateStr) with
  | some row => (row.id, db)
  | none =>
    let setId := db.nextDailySetId
    let db1 := { db with
      dailySets := db.dailySets ++ [{ id := setId, dateAssigned := dateStr }]
      nextDailySetId := setId + 1 }
    (setId, LETTERS.foldl (dailyStep rand lookup setId) db1)

/-! ## `get_today_words` -/

/-- One dict of the list returned by `get_today_words`. -/
structure TodayWord where
  id : Nat
  word : String
  definitionText : String
  exampleText : String
  letter : Char
deriving DecidableEq

/-- The `ORDER BY dw.letter ASC` relation. -/
def letterLE (a b : TodayWord) : Prop := a.letter ≤ b.letter

instance : DecidableRel letterLE := fun a b => inferInstanceAs (Decidable (a.letter ≤ b.letter))

instance : IsTotal TodayWord letterLE := ⟨fun a b => le_total a.letter b.letter⟩

instance : IsTrans TodayWord letterLE := ⟨fun _ _ _ h h2 => le_trans h h2⟩

/-- `get_today_words()`: ensure today's set, then join `daily_words` with
`words` for that set id and order by letter. `today` stands for
`date.today().isoformat()`. -/
def get_today_words (rand : Char → Nat) (lookup : String → DictResponse)
    (today : String) (db : DB) : List TodayWord × DB :=
  let sd := ensure_daily_set rand lookup today db
  (((sd.2.dailyWords.filter (fun dw => dw.dailySetId == sd.1)).filterMap
      (fun dw => (sd.2.words.find? (fun w => w.id == dw.wordId)).map
        (fun w => { id := w.id, word := w.word, definitionText := w.definitionText
                    exampleText := w.exampleText, letter := dw.letter }))).insertionSort
      letterLE,
    sd.2)

/-! ## `take_test` -/

/-- The candidate rows of the `take_test` query before `ORDER BY RANDOM()
LIMIT 5`: all words with no `user_progress` row for this user at all
(`LEFT JOIN … WHERE up.word_id IS NULL`). -/
def takeTestCandidates (userId : Nat) (db : DB) : List Word :=
  db.words.filter
    (fun w => !(db.progress.any (fun p => p.userId == userId && p.wordId == w.id)))

/-- `take_test`: shuffle the candidates (`ORDER BY RANDOM()` injected as
`shuffle`), keep 5, and project the selected columns (id, word, definition). -/
def take_test (shuffle : List Word → List Word) (userId : Nat) (db : DB) :
    List (Nat × String × String) :=
  ((shuffle (takeTestCandidates userId db)).take 5).map
    (fun w => (w.id, w.word, w.definitionText))

/-! ## `error_test` -/

/-- The `ORDER BY ue.last_wrong_at DESC` relation on joined rows. -/
def lastWrongGE (a b : ErrorRow × Word) : Prop := b.1.lastWrongAt ≤ a.1.lastWrongAt

instance : DecidableRel lastWrongGE :=
  fun a b => inferInstanceAs (Decidable (b.1.lastWrongAt ≤ a.1.lastWrongAt))

instance : IsTotal (ErrorRow × Word) lastWrongGE := ⟨fun a b => le_total b.1.lastWrongAt a.1.lastWrongAt⟩

instance : IsTrans (ErrorRow × Word) lastWrongGE := ⟨fun _ _ _ h h2 => le_trans h2 h⟩

/-- The user's `user_errors` rows joined with `words`, ordered by
`last_wrong_at DESC` (before the LIMIT). -/
def errorRowsSorted (userId : Nat) (db : DB) : List (ErrorRow × Word) :=
  ((db.errors.filter (fun e => e.userId == userId)).filterMap
    (fun e => (db.words.find? (fun w => w.id == e.wordId)).map (fun w => (e, w)))).insertionSort
    lastWrongGE

/-- `error_test`: the ordered joined rows, truncated by `LIMIT 10`, projected
to the selected columns (id, word, definition). -/
def error_test (userId : Nat) (db : DB) : List (Nat × String × String) :=
  ((errorRowsSorted userId db).take 10).map (fun p => (p.2.id, p.2.word, p.2.definitionText))

/-! ## Progress ledger upserts (`submit_test` / `submit_error_test`) -/

/-- `SELECT` on the UNIQUE(user_id, word_id) key of `user_progress`. -/
def findProgress (userId wordId : Nat) (ps : List ProgressRow) : Option ProgressRow :=
  ps.find? (fun p => p.userId == userId && p.wordId == wordId)

/-- The `DO UPDATE` clause of the `submit_test` upsert: add the excluded
counters and set `learned` by the CASE on the summed counters. -/
def updateProgressT (now : Nat) (correct : Bool) (p : ProgressRow) : ProgressRow :=
  let cc := p.correctCount + (if correct then 1 else 0)
  let ic := p.incorrectCount + (if correct then 0 else 1)
  { p with lastTestedAt := now, correctCount := cc, incorrectCount := ic
           learned := if 3 ≤ cc ∧ ic = 0 then true else p.learned }

/-- The `DO UPDATE` clause of the `submit_error_test` upsert: counters only,
no CASE on `learned`. -/
def updateProgressE (now : Nat) (correct : Bool) (p : ProgressRow) : ProgressRow :=
  { p with lastTestedAt := now
           correctCount := p.correctCount + (if correct then 1 else 0)
           incorrectCount := p.incorrectCount + (if correct then 0 else 1) }

/-- The fresh row inserted by either upsert when no conflict occurs: counters
from this result and `learned = 1 if correct else 0`. -/
def insertProgressRow (now userId wordId : Nat) (correct : Bool) : ProgressRow :=
  { userId := userId, wordId := wordId, firstTestedAt := now, lastTestedAt := now
    correctCount := if correct then 1 else 0
    incorrectCount := if correct then 0 else 1
    learned := correct }

/-- The `user_progress` upsert of `submit_test` for one answered word. -/
def submitTestUpsert (now userId wordId : Nat) (correct : Bool)
    (ps : List ProgressRow) : List ProgressRow :=
  match findProgress userId wordId ps with
  | some _ => ps.map (fun p =>
      if p.userId == userId && p.wordId == wordId then updateProgressT now correct p else p)
  | none => ps ++ [insertProgressRow now userId wordId correct]

/-- The `user_progress` upsert of `submit_error_test` for one answered word. -/
def submitErrorTestUpsert (now userId wordId : Nat) (correct : Bool)
    (ps : List ProgressRow) : List ProgressRow :=
  match findProgress userId wordId ps with
  | some _ => ps.map (fun p =>
      if p.userId == userId && p.wordId == wordId then updateProgressE now correct p else p)
  | none => ps ++ [insertProgressRow now userId wordId correct]

/-! ## Error queue -/

/-- `DELETE FROM user_errors WHERE user_id = ? AND word_id = ?`. -/
def deleteError (userId wordId : Nat) (es : List ErrorRow) : List ErrorRow :=
  es.filter (fun e => !(e.userId == userId && e.wordId == wordId))

/-- The `user_errors` upsert run on an incorrect answer:
`INSERT … ON CONFLICT(user_id, word_id) DO UPDATE SET last_wrong_at`. -/
def upsertError (now userId wordId : Nat) (es : List ErrorRow) : List ErrorRow :=
  if es.any (fun e => e.userId == userId && e.wordId == wordId) then
    es.map (fun e =>
      if e.userId == userId && e.wordId == wordId then { e with lastWrongAt := now } else e)
  else es ++ [{ userId := userId, wordId := wordId, lastWrongAt := now }]

/-- Whether the queue holds a row for the pair. -/
def hasError (userId wordId : Nat) (es : List ErrorRow) : Bool :=
  es.any (fun e => e.userId == userId && e.wordId == wordId)

/-- The error-queue branch both submit routes run per answered word: delete the
pair's row on a correct answer, upsert it on an incorrect one. -/
def recordErrorEffect (now userId wordId : Nat) (correct : Bool)
    (es : List ErrorRow) : List ErrorRow :=
  if correct then deleteError userId wordId es else upsertError now userId wordId es

/-! ## The submit routes -/

/-- The per-word body of either submit route: the mode picks `submit_test`'s
upsert (`true`) or `submit_error_test`'s (`false`); both then run the same
error-queue branch. -/
def stepResult (mode : Bool) (now userId wordId : Nat) (correct : Bool) (db : DB) : DB :=
  { db with
    progress :=
      if mode then submitTestUpsert now userId wordId correct db.progress
      else submitErrorTestUpsert now userId wordId correct db.progress
    errors := recordErrorEffect now userId wordId correct db.errors }

/-- The `for i, wid in enumerate(ids)` loop: `correctness[i]` raises IndexError
past the end of the list, which aborts the request before `conn.commit()`, so
an `Except.error` result means the database keeps its pre-request state. -/
def submitLoop (mode : Bool) (now userId : Nat) (correctness : List String) :
    List Nat → Nat → DB → Except Unit DB
  | [], _, db => .ok db
  | wid :: rest, i, db =>
    match correctness[i]? with
    | none => .error ()
    | some s => submitLoop mode now userId correctness rest (i + 1)
        (stepResult mode now userId wid (s == "1") db)

/-- `submit_test`: iterate the posted `word_id[]` against `is_correct[]`. -/
def submit_test (now userId : Nat) (ids : List Nat) (correctness : List String)
    (db : DB) : Except Unit DB :=
  submitLoop true now userId correctness ids 0 db

/-- `submit_error_test`: same loop with the error-test upsert. -/
def submit_error_test (now userId : Nat) (ids : List Nat) (correctness : List String)
    (db : DB) : Except Unit DB :=
  submitLoop false now userId correctness ids 0 db

/-! ## Grading -/

/-! ## Concrete states and parameters used by the theorems below -/

/-- A fixed random source (always picks the first candidate). -/
def zeroRand : Char → Nat := fun _ => 0

/-- A dictionary collaborator whose every request fails with a network error. -/
def failLookup : String → DictResponse := fun _ => DictResponse.netError

/-- A progress row already marked learned. -/
def learnedRow : ProgressRow := ⟨1, 1, 0, 0, 3, 0, true⟩

/-- A state whose daily set for 2024-01-01 holds the single word "abate". -/
def dbPinned : DB :=
  { dailySets := [⟨1, "2024-01-01"⟩], words := [⟨1, "abate", "d", "e"⟩]
    dailyWords := [⟨1, 1, 'A'⟩], progress := [], errors := []
    nextDailySetId := 2, nextWordId := 2 }

/-- The state left by a first call of `get_today_words` on `dbPinned`, with the
global word catalog then mutated (the word's text changed). -/
def dbPinnedMutated : DB :=
  { (get_today_words zeroRand failLookup "2024-01-01" dbPinned).2 with
    words := [⟨1, "zephyr", "d", "e"⟩] }

/-- A state whose daily set for 2024-01-01 holds only word 1 while the catalog
also holds word 2, and user 1 has no progress rows. -/
def dbTakeTest : DB :=
  { dailySets := [⟨1, "2024-01-01"⟩]
    words := [⟨1, "abate", "", ""⟩, ⟨2, "zeal", "", ""⟩]
    dailyWords := [⟨1, 1, 'A'⟩], progress := [], errors := []
    nextDailySetId := 2, nextWordId := 3 }

/-- A state in which user 1 has eleven error records with distinct
`last_wrong_at` stamps, each word present in the catalog. -/
def dbErrors : DB :=
  { dailySets := [], dailyWords := [], progress := []
    words := [⟨1, "a", "", ""⟩, ⟨2, "b", "", ""⟩, ⟨3, "c", "", ""⟩, ⟨4, "d", "", ""⟩,
      ⟨5, "e", "", ""⟩, ⟨6, "f", "", ""⟩, ⟨7, "g", "", ""⟩, ⟨8, "h", "", ""⟩,
      ⟨9, "i", "", ""⟩, ⟨10, "j", "", ""⟩, ⟨11, "k", "", ""⟩]
    errors := [⟨1, 1, 1⟩, ⟨1, 2, 2⟩, ⟨1, 3, 3⟩, ⟨1, 4, 4⟩, ⟨1, 5, 5⟩, ⟨1, 6, 6⟩,
      ⟨1, 7, 7⟩, ⟨1, 8, 8⟩, ⟨1, 9, 9⟩, ⟨1, 10, 10⟩, ⟨1, 11, 11⟩]
    nextDailySetId := 1, nextWordId := 12 }

/-- The invariant of the `daily_words` table that the UNIQUE(daily_set_id,
letter) constraint and the A–Z loop maintain: within one set no letter
repeats, and every stored letter is one of the 26 capital letters. -/
def dwInv (rows : List DailyWordRow) : Prop :=
  rows.Pairwise (fun a b => a.dailySetId = b.dailySetId → a.letter ≠ b.letter) ∧
  ∀ a ∈ rows, a.letter ∈ LETTERS

/-- Whitespace-trimming on the underlying character list: drop whitespace
from the front and from the back. -/
def trimChars (cs : List Char) : List Char :=
  ((cs.dropWhile Char.isWhitespace).reverse.dropWhile Char.isWhitespace).reverse

/-- Case-insensitive, whitespace-trimmed normal form of an answer string. -/
def normalizeAnswer (s : String) : List Char :=
  (trimChars s.data).map Char.toLower

/-- Modelled from the spec: the grading of a submitted answer lives in the
client-side quiz templates, which are not part of `app.py` (the route only
receives the resulting `is_correct` flags).  Per the spec it is
"case-insensitive, whitespace-trimmed equality between submitted answer and
the word's own spelling". -/
def grade (submitted canonical : String) : Bool :=
  normalizeAnswer submitted == normalizeAnswer canonical

/-! ## General list lemmas -/

lemma any_filter_not {α : Type} (p : α → Bool) (l : List α) :
    (l.filter (fun a => !p a)).any p = false := by
  induction l with
  | nil => rfl
  | cons a t ih =>
    cases h : p a
    · simp [List.filter_cons, List.any_cons, h, ih]
    · simp [List.filter_cons, h, ih]

lemma filter_not_eq_self_of_any_false {α : Type} (p : α → Bool) (l : List α)
    (h : l.any p = false) : l.filter (fun a => !p a) = l := by
  induction l with
  | nil => rfl
  | cons a t ih =>
    simp only [List.any_cons, Bool.or_eq_false_iff] at h
    simp [List.filter_cons, h.1, ih h.2]

lemma findProgress_map_keyfix (u2 w2 : Nat) (g : ProgressRow → ProgressRow)
    (hkey : ∀ p : ProgressRow,
      ((g p).userId == u2 && (g p).wordId == w2) = (p.userId == u2 && p.wordId == w2))
    (ps : List ProgressRow) :
    findProgress u2 w2 (ps.map g) = (findProgress u2 w2 ps).map g := by
  induction ps with
  | nil => rfl
  | cons p t ih =>
    simp only [findProgress, List.map_cons, List.find?_cons] at *
    rw [hkey p]
    cases h : (p.userId == u2 && p.wordId == w2) <;> simp [ih]

/-! ## Daily-set builder lemmas -/

lemma lookupOrInsertWord_dailySets (lookup : String → DictResponse) (db : DB) (c : String) :
    (lookupOrInsertWord lookup db c).2.dailySets = db.dailySets := by
  simp only [lookupOrInsertWord]
  split <;> rfl

lemma lookupOrInsertWord_dailyWords (lookup : String → DictResponse) (db : DB) (c : String) :
    (lookupOrInsertWord lookup db c).2.dailyWords = db.dailyWords := by
  simp only [lookupOrInsertWord]
  split <;> rfl

lemma dailyStep_dailySets (rand : Char → Nat) (lookup : String → DictResponse)
    (setId : Nat) (acc : DB) (letter : Char) :
    (dailyStep rand lookup setId acc letter).dailySets = acc.dailySets := by
  simp only [dailyStep]
  exact lookupOrInsertWord_dailySets lookup acc _

lemma foldl_dailyStep_dailySets (rand : Char → Nat) (lookup : String → DictResponse)
    (setId : Nat) :
    ∀ (ls : List Char) (acc : DB),
      (ls.foldl (dailyStep rand lookup setId) acc).dailySets = acc.dailySets := by
  intro ls
  induction ls with
  | nil => intro acc; rfl
  | cons a t ih =>
    intro acc
    rw [List.foldl_cons, ih, dailyStep_dailySets]

lemma ensure_daily_set_dailySets_of_new (rand : Char → Nat) (lookup : String → DictResponse)
    (d : String) (db : DB)
    (h : db.dailySets.find? (fun s => s.dateAssigned == d) = none) :
    ((ensure_daily_set rand lookup d db).2).dailySets =
      db.dailySets ++ [{ id := db.nextDailySetId, dateAssigned := d }] := by
  simp only [ensure_daily_set, h]
  rw [foldl_dailyStep_dailySets]

lemma ensure_daily_set_found (rand : Char → Nat) (lookup : String → DictResponse)
    (d : String) (db : DB) (row : DailySetRow)
    (h : db.dailySets.find? (fun s => s.dateAssigned == d) = some row) :
    ensure_daily_set rand lookup d db = (row.id, db) := by
  simp only [ensure_daily_set, h]

lemma ensure_daily_set_id_of_new (rand : Char → Nat) (lookup : String → DictResponse)
    (d : String) (db : DB)
    (h : db.dailySets.find? (fun s => s.dateAssigned == d) = none) :
    (ensure_daily_set rand lookup d db).1 = db.nextDailySetId := by
  simp only [ensure_daily_set, h]

lemma ensure_daily_set_find (rand : Char → Nat) (lookup : String → DictResponse)
    (d : String) (db : DB) :
    ((ensure_daily_set rand lookup d db).2).dailySets.find? (fun s => s.dateAssigned == d) =
      some ⟨(ensure_daily_set rand lookup d db).1, d⟩ := by
  rcases hf : db.dailySets.find? (fun s => s.dateAssigned == d) with _ | row
  · rw [ensure_daily_set_dailySets_of_new rand lookup d db hf, List.find?_append, hf,
      ensure_daily_set_id_of_new rand lookup d db hf]
    simp
  · rw [ensure_daily_set_found rand lookup d db row hf]
    have hd : row.dateAssigned = d := by simpa using List.find?_some hf
    rw [hf]
    cases row
    simp_all

lemma insertDailyWord_inv (rows : List DailyWordRow) (r : DailyWordRow)
    (hr : r.letter ∈ LETTERS) (h : dwInv rows) : dwInv (insertDailyWord rows r) := by
  unfold insertDailyWord
  split
  · exact h
  · rename_i hna
    constructor
    · rw [List.pairwise_append]
      refine ⟨h.1, by simp, ?_⟩
      intro a ha b hb
      simp only [List.mem_singleton] at hb
      subst hb
      intro hsid hlet
      exact hna (List.any_eq_true.mpr ⟨a, ha, by simp [hsid, hlet]⟩)
    · intro a ha
      rcases List.mem_append.mp ha with h1 | h1
      · exact h.2 a h1
      · simp only [List.mem_singleton] at h1
        subst h1
        exact hr

lemma dailyStep_inv (rand : Char → Nat) (lookup : String → DictResponse) (setId : Nat)
    (acc : DB) (letter : Char) (hl : letter ∈ LETTERS) (h : dwInv acc.dailyWords) :
    dwInv (dailyStep rand lookup setId acc letter).dailyWords := by
  simp only [dailyStep]
  rw [lookupOrInsertWord_dailyWords]
  exact insertDailyWord_inv _ _ hl h

lemma foldl_dailyStep_inv (rand : Char → Nat) (lookup : String → DictResponse) (setId : Nat) :
    ∀ (ls : List Char) (acc : DB), (∀ x ∈ ls, x ∈ LETTERS) → dwInv acc.dailyWords →
      dwInv ((ls.foldl (dailyStep rand lookup setId) acc)).dailyWords := by
  intro ls
  induction ls with
  | nil => intro acc _ h; exact h
  | cons a t ih =>
    intro acc hls h
    rw [List.foldl_cons]
    exact ih _ (fun x hx => hls x (List.mem_cons_of_mem a hx))
      (dailyStep_inv rand lookup setId acc a (hls a (List.mem_cons_self a t)) h)

lemma ensure_daily_set_inv (rand : Char → Nat) (lookup : String → DictResponse)
    (d : String) (db : DB) (h : dwInv db.dailyWords) :
    dwInv ((ensure_daily_set rand lookup d db).2).dailyWords := by
  rcases hf : db.dailySets.find? (fun s => s.dateAssigned == d) with _ | row
  · simp only [ensure_daily_set, hf]
    exact foldl_dailyStep_inv rand lookup db.nextDailySetId LETTERS _ (fun x hx => hx) h
  · rw [ensure_daily_set_found rand lookup d db row hf]
    exact h

lemma dwInv_entries (rows : List DailyWordRow) (sid : Nat) (h : dwInv rows) :
    ((rows.filter (fun q => q.dailySetId == sid)).map (fun q => q.letter)).Nodup ∧
    (rows.filter (fun q => q.dailySetId == sid)).length ≤ 26 := by
  have hsub : (rows.filter (fun q => q.dailySetId == sid)).Sublist rows :=
    List.filter_sublist rows
  have hpw := List.Pairwise.sublist hsub h.1
  have hnd : (rows.filter (fun q => q.dailySetId == sid)).Pairwise
      (fun a b => a.letter ≠ b.letter) := by
    refine List.Pairwise.imp_of_mem ?_ hpw
    intro a b ha hb hg
    have ha2 : a.dailySetId = sid := by simpa using (List.mem_filter.mp ha).2
    have hb2 : b.dailySetId = sid := by simpa using (List.mem_filter.mp hb).2
    exact hg (ha2.trans hb2.symm)
  have hletnd : ((rows.filter (fun q => q.dailySetId == sid)).map
      (fun q => q.letter)).Nodup := by
    rw [List.Nodup, List.pairwise_map]
    exact hnd
  refine ⟨hletnd, ?_⟩
  have hss : ((rows.filter (fun q => q.dailySetId == sid)).map (fun q => q.letter)) ⊆
      LETTERS := by
    intro x hx
    rcases List.mem_map.mp hx with ⟨q, hq, rfl⟩
    exact h.2 q (List.mem_filter.mp hq).1
  have hle := (List.Nodup.subperm hletnd hss).length_le
  rw [List.length_map] at hle
  simpa [LETTERS] using hle

/-! ## Claim theorems -/

/-- Claim C1 (code bug evidence): the upsert of `submit_test` inserts a brand
new ProgressRecord with `learned = 1` after a single correct answer (counters
(1, 0), below the threshold of 3 that its own UPDATE branch enforces), and
the upsert of `submit_error_test` leaves `learned = 0` even when the
accumulated counters reach (3, 0); so "learned becomes true exactly when
correct_count ≥ 3 and incorrect_count = 0" fails against the code in both
directions. -/
theorem submit_learned_threshold_violated :
  submitTestUpsert 5 1 1 true [] =
    [{ userId := 1, wordId := 1, firstTestedAt := 5, lastTestedAt := 5,
       correctCount := 1, incorrectCount := 0, learned := true }] ∧
  submitErrorTestUpsert 7 1 1 true
      [{ userId := 1, wordId := 1, firstTestedAt := 0, lastTestedAt := 0,
         correctCount := 2, incorrectCount := 0, learned := false }] =
    [{ userId := 1, wordId := 1, firstTestedAt := 0, lastTestedAt := 7,
       correctCount := 3, incorrectCount := 0, learned := false }] := by
  constructor <;> rfl

/-- Claim C2 (counterexample): `get_today_words` rereads the global tables on
every call and binds nothing per user, so a mutation of the word catalog
between two same-date calls changes the returned list — the set is not
pinned at first access. -/
theorem get_today_words_not_pinned_counterexample :
    (get_today_words zeroRand failLookup "2024-01-01" dbPinned).1 ≠
      (get_today_words zeroRand failLookup "2024-01-01" dbPinnedMutated).1 := by
  decide

/-- Claim C2 (amended): for a fixed date, a repeated `get_today_words` call on
the state left by a previous call returns the identical letter-ordered list
and leaves the state unchanged, whatever the randomness and dictionary
outcomes of either call — provided no external mutation touches the tables in
between; the list is sorted by letter. -/
theorem get_today_words_repeat_stable (r1 r2 : Char → Nat)
    (l1 l2 : String → DictResponse) (today : String) (db : DB) :
    get_today_words r2 l2 today (get_today_words r1 l1 today db).2 =
      get_today_words r1 l1 today db ∧
    ((get_today_words r1 l1 today db).1).Sorted letterLE := by
  constructor
  · have hf := ensure_daily_set_find r1 l1 today db
    simp only [get_today_words]
    rw [ensure_daily_set_found r2 l2 today _ _ hf]
  · simp only [get_today_words]
    exact List.sorted_insertionSort letterLE _

/-- Claim C3: grading is exactly case-insensitive, whitespace-trimmed equality
between the submitted answer and the word's own spelling; in particular a
word always grades correct against itself and " Apple " grades correct
against "apple". -/
theorem grade_case_insensitive_trimmed :
  (∀ s w : String, grade s w = true ↔ normalizeAnswer s = normalizeAnswer w) ∧
  (∀ w : String, grade w w = true) ∧
  grade " Apple " "apple" = true := by
  refine ⟨fun s w => ?_, fun w => ?_, by decide⟩
  · simp [grade]
  · simp [grade]

/-- Claim C4: on a well-formed state, a second `ensure_daily_set` call for the
same date returns the id of the first and changes nothing, and the set the
first call leaves for that date has no repeated letter and at most 26
entries. -/
theorem ensure_daily_set_idempotent_bounded (r1 r2 : Char → Nat)
    (l1 l2 : String → DictResponse) (d : String) (db : DB) (h : dwInv db.dailyWords) :
    ensure_daily_set r2 l2 d (ensure_daily_set r1 l1 d db).2 =
      ((ensure_daily_set r1 l1 d db).1, (ensure_daily_set r1 l1 d db).2) ∧
    (((ensure_daily_set r1 l1 d db).2.dailyWords.filter
        (fun q => q.dailySetId == (ensure_daily_set r1 l1 d db).1)).map
          (fun q => q.letter)).Nodup ∧
    ((ensure_daily_set r1 l1 d db).2.dailyWords.filter
        (fun q => q.dailySetId == (ensure_daily_set r1 l1 d db).1)).length ≤ 26 := by
  refine ⟨?_, (dwInv_entries _ _ (ensure_daily_set_inv r1 l1 d db h)).1,
    (dwInv_entries _ _ (ensure_daily_set_inv r1 l1 d db h)).2⟩
  exact ensure_daily_set_found r2 l2 d _ _ (ensure_daily_set_find r1 l1 d db)

/-- Witness for C4: the hypothesis holds of the fresh database and the
idempotence conclusion follows at a concrete date. -/
theorem ensure_daily_set_idempotent_bounded_witness :
    dwInv emptyDB.dailyWords ∧
    ensure_daily_set zeroRand failLookup "2024-01-01"
        (ensure_daily_set zeroRand failLookup "2024-01-01" emptyDB).2 =
      ((ensure_daily_set zeroRand failLookup "2024-01-01" emptyDB).1,
       (ensure_daily_set zeroRand failLookup "2024-01-01" emptyDB).2) :=
  ⟨⟨List.Pairwise.nil, by simp [emptyDB]⟩,
   (ensure_daily_set_idempotent_bounded zeroRand zeroRand failLookup failLookup
     "2024-01-01" emptyDB ⟨List.Pairwise.nil, by simp [emptyDB]⟩).1⟩

/-- Claim C5 (counterexample): the `take_test` candidate pool contains word 2,
which the user was never tested on but which belongs to no daily set at all
(today's set holds only word 1), so the pool is not today's bound set
filtered by the learned flag. -/
theorem take_test_pool_counterexample :
    (⟨2, "zeal", "", ""⟩ : Word) ∈ takeTestCandidates 1 dbTakeTest ∧
    ((get_today_words zeroRand failLookup "2024-01-01" dbTakeTest).1.map
      (fun t => t.id)) = [1] ∧
    (∀ dw ∈ dbTakeTest.dailyWords, dw.wordId ≠ 2) := by
  decide

/-- Claim C5 (amended): the `take_test` pool is at most 5 words drawn in
random order from the set of all catalog words that have no progress row for
the user (never tested), regardless of today's set and of the learned flag;
the candidate set is characterised exactly by that filter. -/
theorem take_test_untested_pool (userId : Nat) (db : DB) (shuffle : List Word → List Word)
    (hp : (shuffle (takeTestCandidates userId db)).Perm (takeTestCandidates userId db)) :
    (take_test shuffle userId db).length ≤ 5 ∧
    (∀ t ∈ take_test shuffle userId db, ∃ w, w ∈ db.words ∧
      (∀ p ∈ db.progress, ¬(p.userId = userId ∧ p.wordId = w.id)) ∧
      t = (w.id, w.word, w.definitionText)) ∧
    (∀ w : Word, w ∈ takeTestCandidates userId db ↔ w ∈ db.words ∧
      ∀ p ∈ db.progress, ¬(p.userId = userId ∧ p.wordId = w.id)) := by
  have hchar : ∀ w : Word, w ∈ takeTestCandidates userId db ↔ w ∈ db.words ∧
      ∀ p ∈ db.progress, ¬(p.userId = userId ∧ p.wordId = w.id) := by
    intro w
    constructor
    · intro hw
      have h1 := (List.mem_filter.mp hw).1
      have h2 := (List.mem_filter.mp hw).2
      rw [Bool.not_eq_true', List.any_eq_false] at h2
      exact ⟨h1, fun p hp2 hpe => h2 p hp2 (by simp [hpe.1, hpe.2])⟩
    · rintro ⟨h1, h2⟩
      refine List.mem_filter.mpr ⟨h1, ?_⟩
      rw [Bool.not_eq_true', List.any_eq_false]
      intro p hp2 hb
      exact h2 p hp2 (by simpa using hb)
  refine ⟨?_, ?_, hchar⟩
  · simp only [take_test, List.length_map]
    exact List.length_take_le 5 _
  · intro t ht
    simp only [take_test, List.mem_map] at ht
    rcases ht with ⟨w, hw, rfl⟩
    have hw2 : w ∈ shuffle (takeTestCandidates userId db) := List.mem_of_mem_take hw
    have hw3 : w ∈ takeTestCandidates userId db := hp.mem_iff.mp hw2
    rcases (hchar w).mp hw3 with ⟨hwin, hnp⟩
    exact ⟨w, hwin, hnp, rfl⟩

/-- Witness for the amended C5 at the identity shuffle on the fresh state. -/
theorem take_test_untested_pool_witness :
    (id (takeTestCandidates 1 emptyDB)).Perm (takeTestCandidates 1 emptyDB) ∧
    (take_test id 1 emptyDB).length ≤ 5 :=
  ⟨List.Perm.refl _, (take_test_untested_pool 1 emptyDB id (List.Perm.refl _)).1⟩

/-- Claim C6 (counterexample): with eleven error records the route returns
only ten rows, omitting the oldest one, so it does not return all current
ErrorRecords. -/
theorem error_test_omits_counterexample :
    (⟨1, 1, 1⟩ : ErrorRow) ∈ dbErrors.errors ∧
    (error_test 1 dbErrors).length = 10 ∧
    (1, "a", "") ∉ error_test 1 dbErrors := by
  decide

/-- Claim C6 (amended): the route orders the user's error records by
`last_wrong_at` descending and returns the projection of the first ten of
them (a permutation of the user's joined error rows underlies the order), so
at most 10 rows come back. -/
theorem error_test_sorted_limited (userId : Nat) (db : DB) :
    (errorRowsSorted userId db).Sorted lastWrongGE ∧
    (errorRowsSorted userId db).Perm
      ((db.errors.filter (fun e => e.userId == userId)).filterMap
        (fun e => (db.words.find? (fun w => w.id == e.wordId)).map (fun w => (e, w)))) ∧
    error_test userId db =
      ((errorRowsSorted userId db).take 10).map
        (fun p => (p.2.id, p.2.word, p.2.definitionText)) ∧
    (error_test userId db).length ≤ 10 := by
  refine ⟨List.sorted_insertionSort lastWrongGE _, List.perm_insertionSort lastWrongGE _,
    rfl, ?_⟩
  simp only [error_test, List.length_map]
  exact List.length_take_le 10 _

/-- Claim C7: recording an incorrect result and then a correct one for the
same pair leaves no error record for it, and a correct result with no error
record present leaves the queue unchanged. -/
theorem error_queue_resolve (es : List ErrorRow) (now u w : Nat) :
  hasError u w (recordErrorEffect now u w true (recordErrorEffect now u w false es)) = false ∧
  (hasError u w es = false → recordErrorEffect now u w true es = es) := by
  constructor
  · simpa [recordErrorEffect, hasError, deleteError] using
      any_filter_not (fun e => e.userId == u && e.wordId == w) (upsertError now u w es)
  · intro h
    rw [hasError] at h
    simpa [recordErrorEffect, deleteError] using
      filter_not_eq_self_of_any_false (fun e => e.userId == u && e.wordId == w) es h

/-- Witness for C7 on the empty queue. -/
theorem error_queue_resolve_witness :
  hasError 1 1 (recordErrorEffect 0 1 1 true (recordErrorEffect 0 1 1 false [])) = false ∧
  recordErrorEffect 0 1 1 true [] = [] :=
  ⟨(error_queue_resolve [] 0 1 1).1, (error_queue_resolve [] 0 1 1).2 (by decide)⟩

/-- Claim C8: a pair whose progress row is already marked learned keeps a
learned row under any further result from either submit route, correct or
not — the flag is monotone under test results. -/
theorem learned_monotone (ps : List ProgressRow) (now u w u2 w2 : Nat) (correct : Bool)
    (r : ProgressRow) (hfind : findProgress u2 w2 ps = some r) (hl : r.learned = true) :
    (∃ r2, findProgress u2 w2 (submitTestUpsert now u w correct ps) = some r2 ∧
      r2.learned = true) ∧
    (∃ r2, findProgress u2 w2 (submitErrorTestUpsert now u w correct ps) = some r2 ∧
      r2.learned = true) := by
  constructor
  · rw [submitTestUpsert]
    rcases hm : findProgress u w ps with _ | q
    · refine ⟨r, ?_, hl⟩
      simp only [findProgress, List.find?_append] at *
      rw [hfind]
      rfl
    · have hkey : ∀ p : ProgressRow,
        (((if p.userId == u && p.wordId == w then updateProgressT now correct p
           else p)).userId == u2 &&
         ((if p.userId == u && p.wordId == w then updateProgressT now correct p
           else p)).wordId == w2) =
        (p.userId == u2 && p.wordId == w2) := by
        intro p
        by_cases hc : (p.userId == u && p.wordId == w) = true <;> simp [hc, updateProgressT]
      rw [findProgress_map_keyfix u2 w2 _ hkey, hfind]
      refine ⟨_, rfl, ?_⟩
      by_cases hc : (r.userId == u && r.wordId == w) = true
      · simp only [hc, if_pos, updateProgressT]
        split <;> simp [hl]
      · simp [hc, hl]
  · rw [submitErrorTestUpsert]
    rcases hm : findProgress u w ps with _ | q
    · refine ⟨r, ?_, hl⟩
      simp only [findProgress, List.find?_append] at *
      rw [hfind]
      rfl
    · have hkey : ∀ p : ProgressRow,
        (((if p.userId == u && p.wordId == w then updateProgressE now correct p
           else p)).userId == u2 &&
         ((if p.userId == u && p.wordId == w then updateProgressE now correct p
           else p)).wordId == w2) =
        (p.userId == u2 && p.wordId == w2) := by
        intro p
        by_cases hc : (p.userId == u && p.wordId == w) = true <;> simp [hc, updateProgressE]
      rw [findProgress_map_keyfix u2 w2 _ hkey, hfind]
      refine ⟨_, rfl, ?_⟩
      by_cases hc : (r.userId == u && r.wordId == w) = true
      · simp [hc, updateProgressE, hl]
      · simp [hc, hl]

/-- Witness for C8: an already-learned row stays learned under an incorrect
result on the same pair. -/
theorem learned_monotone_witness :
    findProgress 1 1 [learnedRow] = some learnedRow ∧
    (∃ r2, findProgress 1 1 (submitTestUpsert 9 1 1 false [learnedRow]) = some r2 ∧
      r2.learned = true) :=
  ⟨by decide,
   (learned_monotone [learnedRow] 9 1 1 1 1 false learnedRow (by decide) rfl).1⟩

/-- Claim C9: on every outcome of the dictionary call that is not the success
shape, `fetch_word_definition` returns the placeholder pair (it is a total
function, so no outcome raises), and even with a collaborator that always
fails with a network error, `ensure_daily_set` still creates the daily set
row for a new date. -/
theorem fetch_never_raises (resp : DictResponse) (h : fetchSucceeds resp = false) :
    fetch_word_definition resp = fetchFallback ∧
    (∀ (rand : Char → Nat) (d : String) (db : DB),
      db.dailySets.find? (fun s => s.dateAssigned == d) = none →
      ((ensure_daily_set rand (fun _ => DictResponse.netError) d db).2).dailySets =
        db.dailySets ++ [{ id := db.nextDailySetId, dateAssigned := d }]) := by
  refine ⟨?_, fun rand d db hn => ensure_daily_set_dailySets_of_new rand _ d db hn⟩
  cases resp with
  | netError => rfl
  | response code json =>
    simp only [fetchSucceeds, Bool.and_eq_false_iff] at h
    simp only [fetch_word_definition]
    rcases h with h | h
    · rw [if_neg (by simpa using h)]
    · have hn : extractPair json = none := by
        cases he : extractPair json
        · rfl
        · rw [he] at h
          exact absurd h (by simp)
      split
      · rw [hn]
        rfl
      · rfl

/-- Witness for C9 at the network-error outcome. -/
theorem fetch_never_raises_witness :
    fetchSucceeds .netError = false ∧ fetch_word_definition .netError = fetchFallback :=
  ⟨rfl, (fetch_never_raises .netError rfl).1⟩

/-- Lemma for C10: once the running index can pass the end of the
`is_correct` list, the loop ends in the error outcome. -/
lemma submitLoop_oob (mode : Bool) (now u : Nat) (correctness : List String) :
    ∀ (ids : List Nat) (i : Nat) (db : DB), i ≤ correctness.length →
      correctness.length < i + ids.length →
      submitLoop mode now u correctness ids i db = .error () := by
  intro ids
  induction ids with
  | nil =>
    intro i db h1 h2
    exact absurd h2 (by simpa using h1)
  | cons wid rest ih =>
    intro i db h1 h2
    rcases Nat.lt_or_ge i correctness.length with hi | hi
    · simp only [submitLoop, List.getElem?_eq_getElem hi]
      exact ih (i + 1) _ hi (by simp only [List.length_cons] at h2 ⊢; omega)
    · simp only [submitLoop, List.getElem?_eq_none hi]

/-- Claim C10: when `is_correct` is shorter than `word_id`, both submit
routes hit an out-of-bounds index inside the loop and end in the error
outcome before the commit, so none of their writes reach the store. -/
theorem submit_routes_abort_on_short_input (now u : Nat) (ids : List Nat)
    (correctness : List String) (db : DB) (h : correctness.length < ids.length) :
    submit_test now u ids correctness db = .error () ∧
    submit_error_test now u ids correctness db = .error () :=
  ⟨submitLoop_oob true now u correctness ids 0 db (Nat.zero_le _) (by omega),
   submitLoop_oob false now u correctness ids 0 db (Nat.zero_le _) (by omega)⟩

/-- Witness for C10: one answered word with an empty `is_correct` list. -/
theorem submit_routes_abort_witness :
    ([] : List String).length < [1].length ∧
    submit_test 0 1 [1] [] emptyDB = .error () :=
  ⟨by decide, (submit_routes_abort_on_short_input 0 1 [1] [] emptyDB (by decide)).1⟩

end AlphaLearn
